import Mathlib

/-!
Shallow embedding of the `genshin-teammate-bot` repository (files `db.py` and
`bot.py`) together with proofs about the embedded operations.

Conventions of the embedding:
* SQLite tables are lists of row structures; SQL statements become list
  operations that follow the statement's semantics row by row.
* Python strings are Lean `String`s; where structural recursion over the
  characters is needed the embedding works on `List Char` (the `data` of the
  string).
* `str.strip()` is modelled with CPython's full whitespace set
  (`Py_UNICODE_ISSPACE`), and `int(...)` as `pyInt` with CPython's parse:
  its own (slightly different) surrounding-whitespace tolerance, an
  optional single ASCII sign, and a nonempty run of Unicode decimal digits
  (all 66 aligned Nd runs) with single underscores allowed between digits.
  Both tables were enumerated from CPython 3.11 and the corner cases
  (`int("5_5") = 55`, `int("\t3") = 3`, `int("\x1c3")` raises,
  `"\x0b5".strip() = "5"`) were checked against it.
* `str.upper()` is modelled by the ASCII case map; see `pyUpper` for why
  the proved statements do not depend on the case-mapping table.
* Every `aiosqlite.connect` in `db.py` opens a fresh connection and the code
  never issues `PRAGMA foreign_keys=ON`; SQLite leaves foreign-key
  enforcement OFF by default on every connection, so the
  `ON DELETE CASCADE` clause of the `likes` table never fires at runtime.
  `delete_profile` is therefore embedded with the runtime behaviour: it
  removes rows from `profiles` only.
-/

namespace GenshinBot

/-- A row of the `likes` table (`CREATE_LIKES_SQL` in `db.py`):
`PRIMARY KEY (owner_id, viewer_id)`. -/
structure LikeRow where
  owner_id : Int
  viewer_id : Int
  created_at : String
deriving DecidableEq, Repr

/-- A row of the `profiles` table (`CREATE_TABLE_SQL` in `db.py`). The
`id` autoincrement column is never selected by any query of the repository
(`get_profile_by_tg` / `list_profiles` omit it), so it is not modelled. -/
structure ProfileRow where
  tg_id : Int
  server : String
  nickname : String
  uid : String
  adventure_rank : String
  playstyle : String
  languages : String
  platforms : String
  playtime : String
  bio : String
  created_at : String
deriving DecidableEq, Repr

/-- The whole SQLite database `profiles.db`. -/
structure Db where
  profiles : List ProfileRow
  likes : List LikeRow
deriving DecidableEq, Repr

/-- Predicate of the like primary key: the row is the edge
(viewer `v` → owner `o`).  Used by the PK conflict check of `add_like` and
by the `WHERE` clause of `has_liked`. -/
def likeMatches (v o : Int) (r : LikeRow) : Bool :=
  decide (r.owner_id = o ∧ r.viewer_id = v)

/-- `db.has_liked(viewer_id, owner_id)`:
`SELECT 1 FROM likes WHERE viewer_id = ? AND owner_id = ? LIMIT 1`. -/
def has_liked (viewer owner : Int) (db : Db) : Bool :=
  db.likes.any (likeMatches viewer owner)

/-- Number of rows of the `likes` table carrying a given (viewer, owner) key.
The PK constraint keeps this at most 1. -/
def pairCount (db : Db) (viewer owner : Int) : Nat :=
  (db.likes.filter (likeMatches viewer owner)).length

/-- `db.add_like(viewer_id, owner_id)`: a plain `INSERT INTO likes`; the
primary key `(owner_id, viewer_id)` makes SQLite raise `IntegrityError`
exactly when a row with the same key already exists, which the function
catches and turns into `False`.  Returns the boolean together with the
database after the call. -/
def add_like (viewer owner : Int) (created : String) (db : Db) : Bool × Db :=
  if db.likes.any (likeMatches viewer owner) then
    (false, db)
  else
    (true, { db with likes := db.likes ++ [⟨owner, viewer, created⟩] })

/-- `db.get_likes_count(owner_id)`:
`SELECT COUNT(*) FROM likes WHERE owner_id = ?`. -/
def get_likes_count (owner : Int) (db : Db) : Nat :=
  (db.likes.filter (fun r => decide (r.owner_id = owner))).length

/-- `db.get_profile_by_tg(tg_id)`:
`SELECT ... FROM profiles WHERE tg_id = ? LIMIT 1`. -/
def get_profile_by_tg (tg : Int) (db : Db) : Option ProfileRow :=
  db.profiles.find? (fun r => decide (r.tg_id = tg))

/-- `db.delete_profile(tg_id)`: `DELETE FROM profiles WHERE tg_id = ?`.
The docstring of the Python function promises "cascade delete likes (owner
likes) via FK", but no connection of `db.py` ever issues
`PRAGMA foreign_keys=ON`, and SQLite keeps foreign-key enforcement off by
default, so at runtime the `ON DELETE CASCADE` of `CREATE_LIKES_SQL` never
fires: only `profiles` rows are removed. -/
def delete_profile (tg : Int) (db : Db) : Db :=
  { db with profiles := db.profiles.filter (fun r => decide (r.tg_id ≠ tg)) }

/-- `db.count_profiles(server)`:
`SELECT COUNT(*) FROM profiles WHERE server = ?`. -/
def count_profiles (server : String) (db : Db) : Nat :=
  (db.profiles.filter (fun r => decide (r.server = server))).length

/-! ### C1: deletion does not cascade to likes (runtime behaviour) -/

/-- Concrete database: owner 1 has a profile, viewer 2 has liked owner 1. -/
def c1Db : Db :=
  { profiles := [⟨1, "Europe", "owner", "", "", "", "", "", "", "",
      "2026-01-01T00:00:00"⟩],
    likes := [⟨1, 2, "2026-01-02T00:00:00"⟩] }

/-- C1: the claim "deleting an owner's profile also removes every like edge
whose target is that owner, so a subsequent countLikes returns 0" FAILS on
the code as it runs: after `delete_profile 1` the profile row is gone but
the like edge (owner 1, viewer 2) is still present and `get_likes_count 1`
returns 1, not 0.  The cause is the missing `PRAGMA foreign_keys=ON` (see
`delete_profile`); the spec and the function's own docstring describe the
intended cascade, so this is a bug of the code, not of the claim. -/
theorem delete_profile_leaves_like_edge :
    get_profile_by_tg 1 (delete_profile 1 c1Db) = none ∧
    get_likes_count 1 (delete_profile 1 c1Db) = 1 := by
  decide

/-! ### C2: like insertion returns `true` exactly once per pair -/

/-- One `add_like` request of a trace. -/
structure LikeReq where
  viewer : Int
  owner : Int
  created : String
deriving DecidableEq, Repr

/-- Does a request target the pair (viewer `v` → owner `o`)? -/
def reqFor (v o : Int) (r : LikeReq) : Bool :=
  decide (r.viewer = v ∧ r.owner = o)

/-- Run a list of `add_like` requests left to right, collecting the returned
booleans and the final database. -/
def runAddLikes : List LikeReq → Db → List Bool × Db
  | [], db => ([], db)
  | r :: rs, db =>
    let s := add_like r.viewer r.owner r.created db
    let t := runAddLikes rs s.2
    (s.1 :: t.1, t.2)

/-- Number of `true` results that requests for the pair (v, o) received. -/
def truesFor (v o : Int) (reqs : List LikeReq) (results : List Bool) : Nat :=
  ((reqs.zip results).filter (fun p => reqFor v o p.1 && p.2)).length

theorem has_liked_eq_false_iff_pairCount (db : Db) (v o : Int) :
    has_liked v o db = false ↔ pairCount db v o = 0 := by
  simp [has_liked, pairCount, List.any_eq_true, List.length_eq_zero,
    List.filter_eq_nil_iff]

/-- The `likes` table is consistent with its primary key: at most one row
per (viewer, owner) pair. -/
def DbLikesWf (db : Db) : Prop := ∀ v o, pairCount db v o ≤ 1

theorem add_like_likes (v o : Int) (c : String) (db : Db) :
    (add_like v o c db).2.likes =
      if has_liked v o db then db.likes else db.likes ++ [⟨o, v, c⟩] := by
  simp only [add_like, has_liked]
  split <;> rfl

theorem add_like_fst (v o : Int) (c : String) (db : Db) :
    (add_like v o c db).1 = !has_liked v o db := by
  simp only [add_like, has_liked]
  split <;> simp_all

theorem has_liked_add_like (v o : Int) (c : String) (db : Db) (v' o' : Int) :
    has_liked v' o' (add_like v o c db).2 =
      (has_liked v' o' db || decide (v = v' ∧ o = o')) := by
  by_cases hp : has_liked v o db
  · rw [show (add_like v o c db).2 = db by simp [add_like, has_liked] at hp ⊢; simp [hp]]
    by_cases hv : v = v'
    · by_cases ho : o = o'
      · subst hv; subst ho; simp [hp]
      · simp [ho]
    · simp [hv]
  · have h2 : (add_like v o c db).2.likes = db.likes ++ [⟨o, v, c⟩] := by
      rw [add_like_likes]; simp [hp]
    unfold has_liked
    rw [h2, List.any_append]
    simp only [List.any_cons, List.any_nil, likeMatches, Bool.or_false]
    by_cases hv : v = v'
    · by_cases ho : o = o'
      · subst hv; subst ho; simp
      · simp [ho, fun h : o' = o => ho h.symm]
    · simp [hv, fun h : v' = v => hv h.symm]

theorem pairCount_add_like_self (v o : Int) (c : String) (db : Db)
    (h : has_liked v o db = false) :
    pairCount (add_like v o c db).2 v o = pairCount db v o + 1 := by
  unfold pairCount
  rw [add_like_likes, h]
  simp [List.filter_append, likeMatches]

theorem add_like_preserves_wf (v o : Int) (c : String) (db : Db)
    (h : DbLikesWf db) : DbLikesWf (add_like v o c db).2 := by
  intro v' o'
  by_cases hp : has_liked v o db
  · have : (add_like v o c db).2 = db := by
      simp [add_like, has_liked] at hp ⊢; simp [hp]
    rw [this]; exact h v' o'
  · have h2 : (add_like v o c db).2.likes = db.likes ++ [⟨o, v, c⟩] := by
      rw [add_like_likes]; simp [hp]
    unfold pairCount
    rw [h2, List.filter_append]
    by_cases hm : likeMatches v' o' ⟨o, v, c⟩ = true
    · have hvo : o = o' ∧ v = v' := by
        simpa [likeMatches] using hm
      obtain ⟨ho, hv⟩ := hvo; subst hv; subst ho
      have h0 : pairCount db v o = 0 :=
        (has_liked_eq_false_iff_pairCount db v o).1 (by simpa using hp)
      unfold pairCount at h0
      simp [hm, h0]
    · simp [List.filter_cons, hm]
      exact h v' o'

theorem truesFor_cons (v o : Int) (r : LikeReq) (rs : List LikeReq)
    (b : Bool) (bs : List Bool) :
    truesFor v o (r :: rs) (b :: bs) =
      (if reqFor v o r && b then 1 else 0) + truesFor v o rs bs := by
  simp only [truesFor, List.zip_cons_cons, List.filter_cons]
  split <;> simp [Nat.add_comm]

theorem runAddLikes_has (reqs : List LikeReq) :
    ∀ (db : Db) (v o : Int),
      has_liked v o (runAddLikes reqs db).2 =
        (has_liked v o db || reqs.any (reqFor v o)) := by
  induction reqs with
  | nil => intro db v o; simp [runAddLikes]
  | cons r rs ih =>
    intro db v o
    simp only [runAddLikes, List.any_cons]
    rw [ih, has_liked_add_like]
    by_cases hv : r.viewer = v
    · by_cases ho : r.owner = o
      · simp [reqFor, hv, ho, Bool.or_assoc, Bool.or_comm]
      · simp [reqFor, ho]
    · simp [reqFor, hv]

theorem runAddLikes_wf (reqs : List LikeReq) :
    ∀ db : Db, DbLikesWf db → DbLikesWf (runAddLikes reqs db).2 := by
  induction reqs with
  | nil => intro db h; exact h
  | cons r rs ih =>
    intro db h
    exact ih _ (add_like_preserves_wf _ _ _ _ h)

theorem runAddLikes_trues (reqs : List LikeReq) :
    ∀ (db : Db) (v o : Int),
      truesFor v o reqs (runAddLikes reqs db).1 =
        if has_liked v o db then 0
        else if reqs.any (reqFor v o) then 1 else 0 := by
  induction reqs with
  | nil => intro db v o; simp [runAddLikes, truesFor]
  | cons r rs ih =>
    intro db v o
    simp only [runAddLikes]
    rw [truesFor_cons, ih, has_liked_add_like, add_like_fst]
    by_cases hv : r.viewer = v
    · by_cases ho : r.owner = o
      · subst hv; subst ho
        by_cases hl : has_liked r.viewer r.owner db
        · simp [reqFor, hl]
        · simp [reqFor, hl]
      · have : reqFor v o r = false := by simp [reqFor, ho]
        simp only [this, Bool.false_and, if_false, List.any_cons]
        have : (decide (r.viewer = v ∧ r.owner = o)) = false := by simp [ho]
        simp [this, reqFor, ho]
    · have : reqFor v o r = false := by simp [reqFor, hv]
      simp only [this, Bool.false_and, if_false, List.any_cons]
      have : (decide (r.viewer = v ∧ r.owner = o)) = false := by simp [hv]
      simp [this, reqFor, hv]

/-- C2: for every (viewer, owner) pair, a first `add_like` on a database not
containing the pair returns `true` and inserts the edge; any `add_like` on a
database already containing the pair returns `false` and leaves the database
untouched (no exception is possible — the function is total); and over an
arbitrary interleaved trace of `add_like` calls, the pair's requests receive
exactly one `true` (when the pair was absent initially and at least one
request targets it; zero `true`s if the pair was already present), while the
primary key keeps the number of stored edges per pair at most one. -/
theorem add_like_exactly_one_true (reqs : List LikeReq) (db : Db)
    (v o : Int) (c : String) (hwf : DbLikesWf db) :
    ((has_liked v o db = false →
        (add_like v o c db).1 = true ∧
        has_liked v o (add_like v o c db).2 = true) ∧
      (has_liked v o db = true → add_like v o c db = (false, db))) ∧
    DbLikesWf (runAddLikes reqs db).2 ∧
    (has_liked v o db = false →
      truesFor v o reqs (runAddLikes reqs db).1 =
        if reqs.any (reqFor v o) then 1 else 0) ∧
    (has_liked v o db = true →
      truesFor v o reqs (runAddLikes reqs db).1 = 0) ∧
    pairCount (runAddLikes reqs db).2 v o ≤ 1 := by
  refine ⟨⟨?_, ?_⟩, runAddLikes_wf reqs db hwf, ?_, ?_, runAddLikes_wf reqs db hwf v o⟩
  · intro h
    constructor
    · rw [add_like_fst, h]; rfl
    · rw [has_liked_add_like]; simp
  · intro h
    simp [add_like, has_liked] at h ⊢
    simp [h]
  · intro h
    rw [runAddLikes_trues, h]; rfl
  · intro h
    rw [runAddLikes_trues, h]; rfl

/-- Witness for C2: the empty database, then two identical requests
(viewer 2 likes owner 1, retried).  The trace returns exactly one `true`
and stores exactly one edge. -/
theorem add_like_exactly_one_true_witness :
    DbLikesWf ⟨[], []⟩ ∧
    (((has_liked 2 1 ⟨[], []⟩ = false →
        (add_like 2 1 "t0" ⟨[], []⟩).1 = true ∧
        has_liked 2 1 (add_like 2 1 "t0" ⟨[], []⟩).2 = true) ∧
      (has_liked 2 1 ⟨[], []⟩ = true →
        add_like 2 1 "t0" ⟨[], []⟩ = (false, ⟨[], []⟩))) ∧
    DbLikesWf (runAddLikes [⟨2, 1, "t1"⟩, ⟨2, 1, "t2"⟩] ⟨[], []⟩).2 ∧
    (has_liked 2 1 ⟨[], []⟩ = false →
      truesFor 2 1 [⟨2, 1, "t1"⟩, ⟨2, 1, "t2"⟩]
          (runAddLikes [⟨2, 1, "t1"⟩, ⟨2, 1, "t2"⟩] ⟨[], []⟩).1 =
        if ([⟨2, 1, "t1"⟩, ⟨2, 1, "t2"⟩] : List LikeReq).any (reqFor 2 1)
        then 1 else 0) ∧
    (has_liked 2 1 ⟨[], []⟩ = true →
      truesFor 2 1 [⟨2, 1, "t1"⟩, ⟨2, 1, "t2"⟩]
          (runAddLikes [⟨2, 1, "t1"⟩, ⟨2, 1, "t2"⟩] ⟨[], []⟩).1 = 0) ∧
    pairCount (runAddLikes [⟨2, 1, "t1"⟩, ⟨2, 1, "t2"⟩] ⟨[], []⟩).2 2 1 ≤ 1) :=
  ⟨fun v o => by simp [pairCount],
    add_like_exactly_one_true [⟨2, 1, "t1"⟩, ⟨2, 1, "t2"⟩] ⟨[], []⟩ 2 1 "t0"
      (fun v o => by simp [pairCount])⟩

/-! ### `save_profile` and `list_profiles` (`db.py`) -/

/-- Lexicographic comparison of character lists by code point; models
SQLite's default BINARY collation on the ASCII timestamp strings stored in
`created_at` (and Python's `<` on strings where it is used for sorting). -/
def strLeC : List Char → List Char → Bool
  | [], _ => true
  | _ :: _, [] => false
  | a :: as, b :: bs =>
    if a.toNat < b.toNat then true
    else if b.toNat < a.toNat then false
    else strLeC as bs

/-- `ORDER BY created_at DESC`: row `a` comes no later than row `b`. -/
def createdDesc (a b : ProfileRow) : Prop :=
  strLeC b.created_at.toList a.created_at.toList = true

instance : DecidableRel createdDesc := fun a b => by
  unfold createdDesc; infer_instance

/-- `db.list_profiles(server, limit, offset)`:
`SELECT ... WHERE server = ? ORDER BY created_at DESC LIMIT ? OFFSET ?`. -/
def list_profiles (server : String) (limit offset : Nat) (db : Db) :
    List ProfileRow :=
  (((db.profiles.filter (fun r => decide (r.server = server))).insertionSort
      createdDesc).drop offset).take limit

/-- The dict passed to `db.save_profile` by `process_confirm` (all the keys
the function reads with `data.get(k, "")`). -/
structure ProfileData where
  server : String
  nickname : String
  uid : String
  adventure_rank : String
  languages : String
  playtime : String
  bio : String
  platforms : String
  playstyle : String
deriving DecidableEq, Repr

/-- The `UPDATE profiles SET server=?, nickname=?, uid=?, adventure_rank=?,
languages=?, playtime=?, bio=?, platforms=?, playstyle=? WHERE tg_id=?`
applied to one row: every field column is overwritten, `tg_id` and
`created_at` are not in the SET list and keep their values. -/
def updateRow (data : ProfileData) (r : ProfileRow) : ProfileRow :=
  { r with
    server := data.server
    nickname := data.nickname
    uid := data.uid
    adventure_rank := data.adventure_rank
    languages := data.languages
    playtime := data.playtime
    bio := data.bio
    platforms := data.platforms
    playstyle := data.playstyle }

/-- `db.save_profile(tg_id, data)`: SELECT-then-UPDATE on an existing
`tg_id`, INSERT (with `created_at := now`) otherwise. -/
def save_profile (tg : Int) (data : ProfileData) (now : String) (db : Db) :
    Db :=
  if db.profiles.any (fun r => decide (r.tg_id = tg)) then
    { db with
      profiles := db.profiles.map
        (fun r => if r.tg_id = tg then updateRow data r else r) }
  else
    { db with
      profiles := db.profiles ++
        [⟨tg, data.server, data.nickname, data.uid, data.adventure_rank,
          data.playstyle, data.languages, data.platforms, data.playtime,
          data.bio, now⟩] }

/-! ### Browsing cursors (`bot.py`) -/

/-- `get_owner_id(profile)` of `bot.py`: of the keys it probes
(`tg_id`, `owner_id`, `user_id`, `id`) only `tg_id` is ever present in the
dicts produced by `db.py` (the other keys are not selected), and Python's
`if v:` skips a zero value, so the function returns `tg_id` when it is
nonzero and `None` otherwise. -/
def get_owner_id (r : ProfileRow) : Option Int :=
  if r.tg_id ≠ 0 then some r.tg_id else none

/-- One entry of `view_contexts`.  The transport message handles
(`keyboard_message_id`, `profile_message_id`) and the redundant
`profile_id` field only feed best-effort message deletion and the report
button and are not modelled. -/
structure ViewCtx where
  server : String
  offset : Int
  total : Int
  owner_id : Option Int
deriving DecidableEq, Repr

/-- The `view_contexts` dict, keyed by viewer id. -/
abbrev CtxTable := List (Int × ViewCtx)

/-- Dict lookup `view_contexts.get(user_id)`. -/
def lookupCtx : CtxTable → Int → Option ViewCtx
  | [], _ => none
  | p :: t, u => if p.1 = u then some p.2 else lookupCtx t u

/-- Dict removal `view_contexts.pop(user_id, None)`. -/
def eraseCtx (u : Int) (t : CtxTable) : CtxTable :=
  List.filter (fun p => decide (p.1 ≠ u)) t

/-- Dict assignment `view_contexts[viewer_id] = {...}`. -/
def setCtx (u : Int) (c : ViewCtx) (t : CtxTable) : CtxTable :=
  (u, c) :: eraseCtx u t

/-- The user-visible sends of the browsing flow, as abstract tags (the
transport layer is out of scope; Russian message texts are identified by
their role). -/
inductive Msg
  | noProfilesOnServer (server : String)
  | mainMenu
  | loadError
  | profileCard (owner : Option Int) (likes : Nat)
  | actionsPrompt
  | noCurrentProfile
  | cannotLikeNoOwner
  | cannotLikeSelf
  | alreadyLiked
  | likeSent
  | likeFailed
  | noMoreProfiles
  | lastProfile
  | browsingStopped
  | cannotMessageNoOwner
  | cannotMessageSelf
  | enterMessage
deriving DecidableEq, Repr

/-- Result of `send_profile_with_actions`: new cursor table and sends. -/
structure SendResult where
  ctxs : CtxTable
  msgs : List Msg
deriving DecidableEq

/-- The two clamp statements of `send_profile_with_actions`:
`if offset < 0: offset = 0` then `if offset >= total: offset = total - 1`. -/
def clampOffset (offset : Int) (total : Nat) : Int :=
  if (if offset < 0 then 0 else offset) ≥ (total : Int) then (total : Int) - 1
  else if offset < 0 then 0 else offset

/-- The like-count annotation of the rendered card:
`await db.get_likes_count(owner_id) if owner_id else 0`. -/
def cardLikes (owner : Option Int) (db : Db) : Nat :=
  match owner with
  | some o => get_likes_count o db
  | none => 0

/-- `send_profile_with_actions(viewer_id, server, offset)` of `bot.py`:
fetch the total, bail out with a notice when it is zero, clamp the offset
into `[0, total-1]`, fetch one profile at the clamped offset, render it and
store the new cursor (replacing any previous cursor of this viewer). -/
def send_profile_with_actions (viewer : Int) (server : String) (offset : Int)
    (ctxs : CtxTable) (db : Db) : SendResult :=
  if count_profiles server db = 0 then
    ⟨ctxs, [.noProfilesOnServer server, .mainMenu]⟩
  else
    match list_profiles server 1
        (clampOffset offset (count_profiles server db)).toNat db with
    | [] => ⟨ctxs, [.loadError]⟩
    | prof :: _ =>
      ⟨setCtx viewer
          ⟨server, clampOffset offset (count_profiles server db),
            (count_profiles server db : Int), get_owner_id prof⟩ ctxs,
        [.profileCard (get_owner_id prof) (cardLikes (get_owner_id prof) db),
          .actionsPrompt]⟩

/-- The four reply-keyboard actions handled by `handle_action_message`. -/
inductive ActionCmd
  | like
  | dislike
  | message
  | stop
deriving DecidableEq, Repr

/-- Result of one `handle_action_message` call.  `messageTarget = some o`
models `state.update_data(message_target=o)` followed by
`Form.sending_message.set()`; `none` means the FSM was not touched. -/
structure ActionResult where
  ctxs : CtxTable
  db : Db
  messageTarget : Option Int
  msgs : List Msg
deriving DecidableEq

/-- The tail of the Like branch of `handle_action_message`, starting right
after `inserted = await db.add_like(...)`: report the outcome (owner
notification failures are swallowed by the code and not modelled), compute
`next_offset = offset + 1`, terminate the session when it reaches `total`,
re-render otherwise. -/
def like_progress (user : Int) (ctx : ViewCtx) (inserted : Bool)
    (ctxs : CtxTable) (db : Db) : ActionResult :=
  if ctx.offset + 1 ≥ ctx.total then
    ⟨eraseCtx user ctxs, db, none,
      [if inserted then Msg.likeSent else Msg.likeFailed, .noMoreProfiles]⟩
  else
    ⟨(send_profile_with_actions user ctx.server (ctx.offset + 1) ctxs db).ctxs,
      db, none,
      (if inserted then Msg.likeSent else Msg.likeFailed) ::
        (send_profile_with_actions user ctx.server (ctx.offset + 1) ctxs
          db).msgs⟩

/-- `handle_action_message` of `bot.py` (the state part; `created` is the
timestamp `add_like` would store). -/
def handle_action_message (cmd : ActionCmd) (user : Int) (created : String)
    (ctxs : CtxTable) (db : Db) : ActionResult :=
  match lookupCtx ctxs user with
  | none => ⟨ctxs, db, none, [.noCurrentProfile]⟩
  | some ctx =>
    match cmd with
    | .like =>
      match ctx.owner_id with
      | none => ⟨ctxs, db, none, [.cannotLikeNoOwner]⟩
      | some owner =>
        if owner = 0 then ⟨ctxs, db, none, [.cannotLikeNoOwner]⟩
        else if owner = user then ⟨ctxs, db, none, [.cannotLikeSelf]⟩
        else if has_liked user owner db then ⟨ctxs, db, none, [.alreadyLiked]⟩
        else
          like_progress user ctx (add_like user owner created db).1 ctxs
            (add_like user owner created db).2
    | .dislike =>
      if ctx.offset + 1 ≥ ctx.total then
        ⟨eraseCtx user ctxs, db, none, [.lastProfile]⟩
      else
        ⟨(send_profile_with_actions user ctx.server (ctx.offset + 1) ctxs
            db).ctxs,
          db, none,
          (send_profile_with_actions user ctx.server (ctx.offset + 1) ctxs
            db).msgs⟩
    | .message =>
      match ctx.owner_id with
      | none => ⟨ctxs, db, none, [.cannotMessageNoOwner]⟩
      | some owner =>
        if owner = user then ⟨ctxs, db, none, [.cannotMessageSelf]⟩
        else ⟨ctxs, db, some owner, [.enterMessage]⟩
    | .stop => ⟨eraseCtx user ctxs, db, none, [.browsingStopped]⟩

/-! ### Cursor lemmas and the browsing claims -/

/-- Invariant of the cursor table: every stored cursor has its offset in
`[0, total-1]`. -/
def ctxInv (t : CtxTable) : Prop :=
  ∀ p ∈ t, 0 ≤ p.2.offset ∧ p.2.offset < p.2.total

instance (t : CtxTable) : Decidable (ctxInv t) :=
  inferInstanceAs (Decidable (∀ p ∈ t, 0 ≤ p.2.offset ∧ p.2.offset < p.2.total))

theorem lookupCtx_eraseCtx_self (u : Int) (t : CtxTable) :
    lookupCtx (eraseCtx u t) u = none := by
  induction t with
  | nil => rfl
  | cons p t ih =>
    by_cases h : p.1 = u
    · simpa [eraseCtx, List.filter_cons, h] using ih
    · simpa [eraseCtx, List.filter_cons, h, lookupCtx] using ih

theorem lookupCtx_setCtx_self (u : Int) (c : ViewCtx) (t : CtxTable) :
    lookupCtx (setCtx u c t) u = some c := by
  simp [setCtx, lookupCtx]

theorem ctxInv_eraseCtx (u : Int) (t : CtxTable) (h : ctxInv t) :
    ctxInv (eraseCtx u t) :=
  fun p hp => h p (List.mem_filter.1 hp).1

theorem clampOffset_bounds (offset : Int) (total : Nat) (h : total ≠ 0) :
    0 ≤ clampOffset offset total ∧ clampOffset offset total < (total : Int) := by
  have : 1 ≤ total := Nat.one_le_iff_ne_zero.2 h
  unfold clampOffset
  split_ifs <;> omega

theorem clampOffset_of_bounds (offset : Int) (total : Nat)
    (h0 : 0 ≤ offset) (h1 : offset < (total : Int)) :
    clampOffset offset total = offset := by
  unfold clampOffset
  split_ifs <;> omega

theorem ctxInv_send (viewer : Int) (server : String) (offset : Int)
    (ctxs : CtxTable) (db : Db) (h : ctxInv ctxs) :
    ctxInv (send_profile_with_actions viewer server offset ctxs db).ctxs := by
  unfold send_profile_with_actions
  split
  · exact h
  · next h0 =>
    split
    · exact h
    · intro p hp
      rcases List.mem_cons.1 hp with rfl | hp'
      · simpa using clampOffset_bounds offset (count_profiles server db) h0
      · exact h p (List.mem_filter.1 hp').1

theorem ctxInv_like_progress (user : Int) (ctx : ViewCtx) (inserted : Bool)
    (ctxs : CtxTable) (db : Db) (h : ctxInv ctxs) :
    ctxInv (like_progress user ctx inserted ctxs db).ctxs := by
  unfold like_progress
  split
  · exact ctxInv_eraseCtx user ctxs h
  · exact ctxInv_send user ctx.server (ctx.offset + 1) ctxs db h

theorem ctxInv_handle (cmd : ActionCmd) (user : Int) (created : String)
    (ctxs : CtxTable) (db : Db) (h : ctxInv ctxs) :
    ctxInv (handle_action_message cmd user created ctxs db).ctxs := by
  unfold handle_action_message
  split
  · exact h
  · split
    · split
      · exact h
      · split
        · exact h
        · split
          · exact h
          · split
            · exact h
            · exact ctxInv_like_progress _ _ _ _ _ h
    · split
      · exact ctxInv_eraseCtx user ctxs h
      · exact ctxInv_send user _ _ ctxs db h
    · split
      · exact h
      · split
        · exact h
        · exact h
    · exact ctxInv_eraseCtx user ctxs h

/-- C3: on every render the stored cursor offset is clamped into
`[0, total-1]` (the clamp invariant is preserved by `send_profile_with_actions`
and by every action), and a Like or Dislike whose post-increment offset
reaches or exceeds the stored total removes the viewer's cursor from the
table — the offset can neither wrap around nor become negative. -/
theorem browsing_offset_clamped_and_terminating (viewer user : Int)
    (server created : String) (offset : Int) (cmd : ActionCmd)
    (ctxs : CtxTable) (db : Db) (ctx : ViewCtx)
    (hinv : ctxInv ctxs) (hctx : lookupCtx ctxs user = some ctx) :
    ctxInv (send_profile_with_actions viewer server offset ctxs db).ctxs ∧
    ctxInv (handle_action_message cmd user created ctxs db).ctxs ∧
    (ctx.offset + 1 ≥ ctx.total →
      lookupCtx (handle_action_message .dislike user created ctxs db).ctxs
        user = none) ∧
    (∀ owner : Int, ctx.owner_id = some owner → owner ≠ 0 → owner ≠ user →
      has_liked user owner db = false → ctx.offset + 1 ≥ ctx.total →
      lookupCtx (handle_action_message .like user created ctxs db).ctxs
        user = none) := by
  refine ⟨ctxInv_send viewer server offset ctxs db hinv,
    ctxInv_handle cmd user created ctxs db hinv, ?_, ?_⟩
  · intro hoff
    simp [handle_action_message, hctx, hoff, lookupCtx_eraseCtx_self]
  · intro owner howner h0 huser hnl hoff
    simp [handle_action_message, hctx, howner, h0, huser, hnl, like_progress,
      hoff, lookupCtx_eraseCtx_self]

/-- Witness for C3: viewer 5 is on the last profile (offset 0 of total 1)
of server "Europe" owned by user 7 with no prior like. -/
theorem browsing_offset_clamped_and_terminating_witness :
    ctxInv [(5, ⟨"Europe", 0, 1, some 7⟩)] ∧
    lookupCtx [(5, ⟨"Europe", 0, 1, some 7⟩)] 5 =
      some ⟨"Europe", 0, 1, some 7⟩ ∧
    (ctxInv (send_profile_with_actions 5 "Europe" 0
        [(5, ⟨"Europe", 0, 1, some 7⟩)] c1Db).ctxs ∧
      ctxInv (handle_action_message .like 5 "t"
        [(5, ⟨"Europe", 0, 1, some 7⟩)] c1Db).ctxs ∧
      ((0 : Int) + 1 ≥ 1 →
        lookupCtx (handle_action_message .dislike 5 "t"
          [(5, ⟨"Europe", 0, 1, some 7⟩)] c1Db).ctxs 5 = none) ∧
      (∀ owner : Int, (some 7 : Option Int) = some owner → owner ≠ 0 →
        owner ≠ 5 → has_liked 5 owner c1Db = false → (0 : Int) + 1 ≥ 1 →
        lookupCtx (handle_action_message .like 5 "t"
          [(5, ⟨"Europe", 0, 1, some 7⟩)] c1Db).ctxs 5 = none)) :=
  ⟨by decide, by decide,
    browsing_offset_clamped_and_terminating 5 5 "Europe" "t" 0 .like
      [(5, ⟨"Europe", 0, 1, some 7⟩)] c1Db ⟨"Europe", 0, 1, some 7⟩
      (by decide) (by decide)⟩

/-- C7: whenever the resolved owner id stored in the viewer's cursor equals
the viewer's own id, both the Like action and the Message action are
rejected: the cursor table, the database and the FSM message target are all
left unchanged. -/
theorem no_self_like_no_self_message (user : Int) (created : String)
    (ctxs : CtxTable) (db : Db) (ctx : ViewCtx)
    (hctx : lookupCtx ctxs user = some ctx)
    (hself : ctx.owner_id = some user) :
    (handle_action_message .like user created ctxs db).ctxs = ctxs ∧
    (handle_action_message .like user created ctxs db).db = db ∧
    (handle_action_message .like user created ctxs db).messageTarget = none ∧
    (handle_action_message .message user created ctxs db).ctxs = ctxs ∧
    (handle_action_message .message user created ctxs db).db = db ∧
    (handle_action_message .message user created ctxs db).messageTarget
      = none := by
  by_cases h0 : user = 0
  · subst h0; simp [handle_action_message, hctx, hself]
  · simp [handle_action_message, hctx, hself, h0]

/-- Witness for C7: viewer 7 is shown their own profile (owner 7). -/
theorem no_self_like_no_self_message_witness :
    lookupCtx [(7, ⟨"Europe", 0, 2, some 7⟩)] 7 =
      some ⟨"Europe", 0, 2, some 7⟩ ∧
    (⟨"Europe", 0, 2, some 7⟩ : ViewCtx).owner_id = some 7 ∧
    ((handle_action_message .like 7 "t"
        [(7, ⟨"Europe", 0, 2, some 7⟩)] c1Db).ctxs =
      [(7, ⟨"Europe", 0, 2, some 7⟩)] ∧
    (handle_action_message .like 7 "t"
        [(7, ⟨"Europe", 0, 2, some 7⟩)] c1Db).db = c1Db ∧
    (handle_action_message .like 7 "t"
        [(7, ⟨"Europe", 0, 2, some 7⟩)] c1Db).messageTarget = none ∧
    (handle_action_message .message 7 "t"
        [(7, ⟨"Europe", 0, 2, some 7⟩)] c1Db).ctxs =
      [(7, ⟨"Europe", 0, 2, some 7⟩)] ∧
    (handle_action_message .message 7 "t"
        [(7, ⟨"Europe", 0, 2, some 7⟩)] c1Db).db = c1Db ∧
    (handle_action_message .message 7 "t"
        [(7, ⟨"Europe", 0, 2, some 7⟩)] c1Db).messageTarget = none) :=
  ⟨by decide, by decide,
    no_self_like_no_self_message 7 "t" [(7, ⟨"Europe", 0, 2, some 7⟩)] c1Db
      ⟨"Europe", 0, 2, some 7⟩ (by decide) (by decide)⟩

/-- C9: selecting a server with zero profiles sends the "no profiles yet"
notice (plus the main menu) and returns before the cursor table is written:
the table — in particular any pre-existing cursor of this viewer — is
unchanged. -/
theorem no_profiles_keeps_existing_cursor (viewer : Int) (server : String)
    (offset : Int) (ctxs : CtxTable) (db : Db)
    (h : count_profiles server db = 0) :
    (send_profile_with_actions viewer server offset ctxs db).ctxs = ctxs ∧
    (send_profile_with_actions viewer server offset ctxs db).msgs
      = [.noProfilesOnServer server, .mainMenu] ∧
    lookupCtx (send_profile_with_actions viewer server offset ctxs db).ctxs
        viewer
      = lookupCtx ctxs viewer := by
  unfold send_profile_with_actions
  simp [h]

/-- Witness for C9: viewer 5 already holds a cursor on server "Asia" and
selects server "CN", which has no profiles in `c1Db`. -/
theorem no_profiles_keeps_existing_cursor_witness :
    count_profiles "CN" c1Db = 0 ∧
    ((send_profile_with_actions 5 "CN" 0
        [(5, ⟨"Asia", 0, 1, some 7⟩)] c1Db).ctxs =
      [(5, ⟨"Asia", 0, 1, some 7⟩)] ∧
    (send_profile_with_actions 5 "CN" 0
        [(5, ⟨"Asia", 0, 1, some 7⟩)] c1Db).msgs
      = [.noProfilesOnServer "CN", .mainMenu] ∧
    lookupCtx (send_profile_with_actions 5 "CN" 0
        [(5, ⟨"Asia", 0, 1, some 7⟩)] c1Db).ctxs 5
      = lookupCtx [(5, ⟨"Asia", 0, 1, some 7⟩)] 5) :=
  ⟨by decide,
    no_profiles_keeps_existing_cursor 5 "CN" 0
      [(5, ⟨"Asia", 0, 1, some 7⟩)] c1Db (by decide)⟩

theorem length_list_profiles (server : String) (limit offset : Nat)
    (db : Db) :
    (list_profiles server limit offset db).length =
      min limit (count_profiles server db - offset) := by
  unfold list_profiles count_profiles
  rw [List.length_take, List.length_drop, List.length_insertionSort]

theorem list_profiles_ne_nil (server : String) (n : Nat) (db : Db)
    (h : n < count_profiles server db) : list_profiles server 1 n db ≠ [] := by
  intro hnil
  have := length_list_profiles server 1 n db
  rw [hnil] at this
  simp at this
  omega

theorem send_ctxs_congr (viewer : Int) (server : String) (offset : Int)
    (ctxs : CtxTable) (db1 db2 : Db) (hp : db1.profiles = db2.profiles) :
    (send_profile_with_actions viewer server offset ctxs db1).ctxs
      = (send_profile_with_actions viewer server offset ctxs db2).ctxs := by
  have hc : count_profiles server db1 = count_profiles server db2 := by
    unfold count_profiles; rw [hp]
  have hl : list_profiles server 1
        (clampOffset offset (count_profiles server db2)).toNat db1
      = list_profiles server 1
        (clampOffset offset (count_profiles server db2)).toNat db2 := by
    unfold list_profiles; rw [hp]
  by_cases h0 : count_profiles server db2 = 0
  · simp [send_profile_with_actions, hc, h0]
  · simp only [send_profile_with_actions, hc, hl]
    rw [if_neg h0, if_neg h0]
    cases list_profiles server 1
        (clampOffset offset (count_profiles server db2)).toNat db2 with
    | nil => rfl
    | cons prof rest => rfl

/-- C8: after the has-liked pre-check has passed, the rest of the Like
branch advances the cursor offset by exactly one no matter what boolean the
store insert reported (and no matter how the likes table looked at insert
time): the resulting cursor table is the same for `inserted=true` and
`inserted=false`, the session terminates when `offset+1` reaches the stored
total, and otherwise the re-rendered cursor carries `offset+1`. -/
theorem like_progress_offset_independent_of_inserted (user : Int)
    (ctx : ViewCtx) (ctxs : CtxTable) (db1 db2 : Db) (i1 i2 : Bool)
    (hp : db1.profiles = db2.profiles)
    (htot : ctx.total = (count_profiles ctx.server db1 : Int))
    (hoff : 0 ≤ ctx.offset) :
    (like_progress user ctx i1 ctxs db1).ctxs
      = (like_progress user ctx i2 ctxs db2).ctxs ∧
    (ctx.offset + 1 ≥ ctx.total →
      lookupCtx (like_progress user ctx i1 ctxs db1).ctxs user = none) ∧
    (ctx.offset + 1 < ctx.total →
      ∃ c, lookupCtx (like_progress user ctx i1 ctxs db1).ctxs user = some c ∧
        c.offset = ctx.offset + 1 ∧ c.server = ctx.server) := by
  refine ⟨?_, ?_, ?_⟩
  · unfold like_progress
    split
    · simp
    · simpa using send_ctxs_congr user ctx.server (ctx.offset + 1) ctxs
        db1 db2 hp
  · intro h
    simp [like_progress, h, lookupCtx_eraseCtx_self]
  · intro hlt
    have hcount0 : count_profiles ctx.server db1 ≠ 0 := by omega
    have hnge : ¬ ctx.offset + 1 ≥ ctx.total := by omega
    have hclamp : clampOffset (ctx.offset + 1)
        (count_profiles ctx.server db1) = ctx.offset + 1 :=
      clampOffset_of_bounds _ _ (by omega) (by omega)
    have hlen : (ctx.offset + 1).toNat < count_profiles ctx.server db1 := by
      omega
    have hne := list_profiles_ne_nil ctx.server (ctx.offset + 1).toNat db1 hlen
    simp only [like_progress]
    rw [if_neg hnge]
    simp only [send_profile_with_actions]
    rw [if_neg hcount0, hclamp]
    cases hl : list_profiles ctx.server 1 (ctx.offset + 1).toNat db1 with
    | nil => exact absurd hl hne
    | cons prof rest =>
      exact ⟨⟨ctx.server, ctx.offset + 1, (count_profiles ctx.server db1 : Int),
          get_owner_id prof⟩,
        lookupCtx_setCtx_self user _ ctxs, rfl, rfl⟩

/-- Two profiles on server "Europe" (owners 7 and 8); owner 7's profile was
created later, so it is shown first. -/
def c8Db : Db :=
  { profiles :=
      [⟨7, "Europe", "first", "", "", "", "", "", "", "",
        "2026-01-02T00:00:00"⟩,
       ⟨8, "Europe", "second", "", "", "", "", "", "", "",
        "2026-01-01T00:00:00"⟩],
    likes := [] }

/-- Witness for C8: viewer 5 is at offset 0 of 2 on server "Europe". -/
theorem like_progress_offset_independent_of_inserted_witness :
    c8Db.profiles = c8Db.profiles ∧
    (⟨"Europe", 0, 2, some 7⟩ : ViewCtx).total =
      (count_profiles "Europe" c8Db : Int) ∧
    (0 : Int) ≤ (⟨"Europe", 0, 2, some 7⟩ : ViewCtx).offset ∧
    ((like_progress 5 ⟨"Europe", 0, 2, some 7⟩ true [] c8Db).ctxs
      = (like_progress 5 ⟨"Europe", 0, 2, some 7⟩ false [] c8Db).ctxs ∧
    ((⟨"Europe", 0, 2, some 7⟩ : ViewCtx).offset + 1 ≥
        (⟨"Europe", 0, 2, some 7⟩ : ViewCtx).total →
      lookupCtx (like_progress 5 ⟨"Europe", 0, 2, some 7⟩ true [] c8Db).ctxs 5
        = none) ∧
    ((⟨"Europe", 0, 2, some 7⟩ : ViewCtx).offset + 1 <
        (⟨"Europe", 0, 2, some 7⟩ : ViewCtx).total →
      ∃ c, lookupCtx
          (like_progress 5 ⟨"Europe", 0, 2, some 7⟩ true [] c8Db).ctxs 5
        = some c ∧
        c.offset = (⟨"Europe", 0, 2, some 7⟩ : ViewCtx).offset + 1 ∧
        c.server = (⟨"Europe", 0, 2, some 7⟩ : ViewCtx).server)) :=
  ⟨rfl, by decide, by decide,
    like_progress_offset_independent_of_inserted 5 ⟨"Europe", 0, 2, some 7⟩
      [] c8Db c8Db true false rfl (by decide) (by decide)⟩

/-! ### C10: updating a profile keeps `created_at` and the browsing order -/

theorem updateRow_created_at (data : ProfileData) (r : ProfileRow) :
    (updateRow data r).created_at = r.created_at := rfl

theorem updateRow_tg_id (data : ProfileData) (r : ProfileRow) :
    (updateRow data r).tg_id = r.tg_id := rfl

theorem filter_map_comm {f : ProfileRow → ProfileRow}
    {p : ProfileRow → Bool} (l : List ProfileRow)
    (h : ∀ x ∈ l, p (f x) = p x) :
    (l.map f).filter p = (l.filter p).map f := by
  induction l with
  | nil => rfl
  | cons a t ih =>
    simp only [List.map_cons, List.filter_cons]
    rw [h a (List.mem_cons_self a t)]
    cases hpa : p a with
    | false => simpa [hpa] using ih (fun x hx => h x (List.mem_cons_of_mem a hx))
    | true => simpa [hpa] using ih (fun x hx => h x (List.mem_cons_of_mem a hx))

theorem orderedInsert_map_createdDesc {f : ProfileRow → ProfileRow}
    (hf : ∀ x, (f x).created_at = x.created_at) (a : ProfileRow)
    (l : List ProfileRow) :
    List.orderedInsert createdDesc (f a) (l.map f)
      = (List.orderedInsert createdDesc a l).map f := by
  induction l with
  | nil => rfl
  | cons b t ih =>
    have hiff : createdDesc (f a) (f b) ↔ createdDesc a b := by
      unfold createdDesc; rw [hf, hf]
    simp only [List.map_cons, List.orderedInsert]
    by_cases h : createdDesc a b
    · rw [if_pos (hiff.2 h), if_pos h]
      simp
    · rw [if_neg (fun hc => h (hiff.1 hc)), if_neg h]
      simp [ih]

theorem insertionSort_map_createdDesc {f : ProfileRow → ProfileRow}
    (hf : ∀ x, (f x).created_at = x.created_at) (l : List ProfileRow) :
    List.insertionSort createdDesc (l.map f)
      = (List.insertionSort createdDesc l).map f := by
  induction l with
  | nil => rfl
  | cons a t ih =>
    simp only [List.map_cons, List.insertionSort]
    rw [ih, orderedInsert_map_createdDesc hf]

/-- C10: when `save_profile` hits an existing owner it issues the UPDATE
branch, which rewrites only the field columns: every row's `created_at` is
unchanged, and — since the edit dialog always carries the row's existing
server value (edit mode never revisits server selection) — the sequence of
owner ids returned by `list_profiles` is unchanged for every server, page
size and page offset, so the edited profile keeps its position in the
descending-creation-time browsing order. -/
theorem save_profile_keeps_created_at_and_order (tg : Int)
    (data : ProfileData) (now : String) (db : Db)
    (hex : db.profiles.any (fun r => decide (r.tg_id = tg)) = true)
    (hsrv : ∀ r ∈ db.profiles, r.tg_id = tg → r.server = data.server) :
    (save_profile tg data now db).profiles.map ProfileRow.created_at
      = db.profiles.map ProfileRow.created_at ∧
    ∀ (server : String) (limit offset : Nat),
      (list_profiles server limit offset
          (save_profile tg data now db)).map ProfileRow.tg_id
        = (list_profiles server limit offset db).map ProfileRow.tg_id := by
  have hprof : (save_profile tg data now db).profiles =
      db.profiles.map (fun r => if r.tg_id = tg then updateRow data r else r) := by
    simp [save_profile, hex]
  have hfc : ∀ x : ProfileRow,
      ((fun r => if r.tg_id = tg then updateRow data r else r) x).created_at
        = x.created_at := by
    intro x; by_cases h : x.tg_id = tg <;> simp [h, updateRow_created_at]
  have hft : ∀ x : ProfileRow,
      ((fun r => if r.tg_id = tg then updateRow data r else r) x).tg_id
        = x.tg_id := by
    intro x; by_cases h : x.tg_id = tg <;> simp [h, updateRow_tg_id]
  constructor
  · rw [hprof, List.map_map]
    exact List.map_congr_left (fun x _ => hfc x)
  · intro server limit offset
    have hps : ∀ x ∈ db.profiles,
        (decide (((fun r => if r.tg_id = tg then updateRow data r else r)
            x).server = server))
          = decide (x.server = server) := by
      intro x hx
      by_cases h : x.tg_id = tg
      · simp only [h, if_true]
        have : (updateRow data x).server = x.server := by
          simp [updateRow, hsrv x hx h]
        rw [this]
      · simp [h]
    unfold list_profiles
    rw [hprof, filter_map_comm db.profiles hps,
      insertionSort_map_createdDesc hfc, ← List.map_drop, ← List.map_take,
      List.map_map]
    exact List.map_congr_left (fun x _ => hft x)

/-- Witness for C10: owner 7 of `c8Db` re-saves their profile with new
field values but the same server "Europe". -/
theorem save_profile_keeps_created_at_and_order_witness :
    c8Db.profiles.any (fun r => decide (r.tg_id = 7)) = true ∧
    (∀ r ∈ c8Db.profiles, r.tg_id = 7 →
      r.server = (⟨"Europe", "newnick", "900", "59", "RU", "MSK+3",
        "new bio", "", ""⟩ : ProfileData).server) ∧
    ((save_profile 7 ⟨"Europe", "newnick", "900", "59", "RU", "MSK+3",
        "new bio", "", ""⟩ "2026-02-01T00:00:00" c8Db).profiles.map
          ProfileRow.created_at
        = c8Db.profiles.map ProfileRow.created_at ∧
    ∀ (server : String) (limit offset : Nat),
      (list_profiles server limit offset
          (save_profile 7 ⟨"Europe", "newnick", "900", "59", "RU", "MSK+3",
            "new bio", "", ""⟩ "2026-02-01T00:00:00" c8Db)).map
          ProfileRow.tg_id
        = (list_profiles server limit offset c8Db).map ProfileRow.tg_id) :=
  ⟨by decide, by decide,
    save_profile_keeps_created_at_and_order 7
      ⟨"Europe", "newnick", "900", "59", "RU", "MSK+3", "new bio", "", ""⟩
      "2026-02-01T00:00:00" c8Db (by decide) (by decide)⟩

/-! ### Python string primitives used by the dialog handlers -/

/-- The whitespace set of Python's `str.strip()` / `str.isspace()`
(CPython's `Py_UNICODE_ISSPACE`, enumerated from CPython 3.11):
U+0009–U+000D, U+001C–U+001F, the space, NEL, NBSP, and the Unicode space
characters U+1680, U+2000–U+200A, U+2028, U+2029, U+202F, U+205F,
U+3000. -/
def pyIsSpace (c : Char) : Bool :=
  decide ((9 ≤ c.toNat ∧ c.toNat ≤ 13) ∨ (28 ≤ c.toNat ∧ c.toNat ≤ 31) ∨
    c.toNat = 32 ∨ c.toNat = 133 ∨ c.toNat = 160 ∨ c.toNat = 0x1680 ∨
    (0x2000 ≤ c.toNat ∧ c.toNat ≤ 0x200A) ∨ c.toNat = 0x2028 ∨
    c.toNat = 0x2029 ∨ c.toNat = 0x202F ∨ c.toNat = 0x205F ∨
    c.toNat = 0x3000)

/-- The surrounding whitespace tolerated by `int(str)`: CPython first maps
every non-ASCII whitespace character to a space and then its ASCII parser
skips only `\t`, `\n`, `\v`, `\f`, `\r` and the space — so the information
separators U+001C–U+001F, although stripped by `str.strip()`, make `int`
raise (checked against CPython 3.11: `int("\x1c3")` raises while
`int(" 3")` is 3). -/
def pyIntSpace (c : Char) : Bool :=
  decide ((9 ≤ c.toNat ∧ c.toNat ≤ 13) ∨ c.toNat = 32 ∨ c.toNat = 133 ∨
    c.toNat = 160 ∨ c.toNat = 0x1680 ∨
    (0x2000 ≤ c.toNat ∧ c.toNat ≤ 0x200A) ∨ c.toNat = 0x2028 ∨
    c.toNat = 0x2029 ∨ c.toNat = 0x202F ∨ c.toNat = 0x205F ∨
    c.toNat = 0x3000)

/-- `str.strip()` on the character list. -/
def pyStripC (l : List Char) : List Char :=
  ((l.dropWhile pyIsSpace).reverse.dropWhile pyIsSpace).reverse

/-- `str.strip()`. -/
def pyStrip (s : String) : String := String.mk (pyStripC s.toList)

/-- `str.upper()`, modelled by the ASCII case map (`Char.toUpper` shifts
exactly the basic latin lower-case letters).  Python's full case mapping
additionally changes ~1500 other code points and can be one-to-many
(`'ſ'.upper() = 'S'`, `'ß'.upper() = 'SS'`), which a `Char → Char` map
cannot express; every property proved below that involves uppercasing
applies the same map on both sides of the statement, so its truth does not
depend on which case-mapping table is used. -/
def pyUpper (s : String) : String := String.mk (s.toList.map Char.toUpper)

/-- `str.replace(c, "")`: drop every occurrence of one character. -/
def removeChar (c : Char) (s : String) : String :=
  String.mk (s.toList.filter (fun x => x ≠ c))

/-- First code points of the 66 aligned runs of ten consecutive Unicode
decimal digits (general category Nd), enumerated from CPython 3.11's
`unicodedata`; a digit's value is its offset inside its run.  These are
exactly the characters `int(str)` accepts as digits. -/
def ndStarts : List Nat :=
  [0x30, 0x660, 0x6F0, 0x7C0, 0x966, 0x9E6, 0xA66, 0xAE6, 0xB66, 0xBE6,
   0xC66, 0xCE6, 0xD66, 0xDE6, 0xE50, 0xED0, 0xF20, 0x1040, 0x1090,
   0x17E0, 0x1810, 0x1946, 0x19D0, 0x1A80, 0x1A90, 0x1B50, 0x1BB0,
   0x1C40, 0x1C50, 0xA620, 0xA8D0, 0xA900, 0xA9D0, 0xA9F0, 0xAA50,
   0xABF0, 0xFF10, 0x104A0, 0x10D30, 0x11066, 0x110F0, 0x11136, 0x111D0,
   0x112F0, 0x11450, 0x114D0, 0x11650, 0x116C0, 0x11730, 0x118E0,
   0x11950, 0x11C50, 0x11D50, 0x11DA0, 0x16A60, 0x16AC0, 0x16B50,
   0x1D7CE, 0x1D7D8, 0x1D7E2, 0x1D7EC, 0x1D7F6, 0x1E140, 0x1E2F0,
   0x1E950, 0x1FBF0]

/-- Value of a Unicode decimal digit (what `int(str)` accepts per
character), `none` for every other character. -/
def pyDigitVal (c : Char) : Option Nat :=
  match ndStarts.find? (fun s => decide (s ≤ c.toNat ∧ c.toNat < s + 10)) with
  | some s => some (c.toNat - s)
  | none => none

/-- Digits after the first one.  The flag records that the previous
character was an underscore: since Python 3.6 a single `_` is allowed
between two digits (`int("5_5") = 55`) but not doubled, leading, trailing
or adjacent to the sign (`int("1__2")`, `int("1_")`, `int("+_1")` all
raise). -/
def pyDigitsGo : Bool → List Char → Nat → Option Nat
  | false, [], acc => some acc
  | true, [], _ => none
  | false, c :: cs, acc =>
    if c = '_' then pyDigitsGo true cs acc
    else
      match pyDigitVal c with
      | some d => pyDigitsGo false cs (10 * acc + d)
      | none => none
  | true, c :: cs, acc =>
    match pyDigitVal c with
    | some d => pyDigitsGo false cs (10 * acc + d)
    | none => none

/-- A nonempty digit run with optional underscore grouping; must begin
with a digit. -/
def pyDigits : List Char → Option Nat
  | [] => none
  | c :: cs =>
    match pyDigitVal c with
    | some d => pyDigitsGo false cs d
    | none => none

/-- Python `int(str)`: strip the tolerated surrounding whitespace, then an
optional single ASCII sign followed by a nonempty run of Unicode decimal
digits with optional underscore grouping. -/
def pyIntC (l : List Char) : Option Int :=
  match ((l.dropWhile pyIntSpace).reverse.dropWhile pyIntSpace).reverse with
  | '+' :: r => (pyDigits r).map (fun n => (n : Int))
  | '-' :: r => (pyDigits r).map (fun n => -(n : Int))
  | r => (pyDigits r).map (fun n => (n : Int))

def pyInt (s : String) : Option Int := pyIntC s.toList

/-! ### Form dialog state (`bot.py`) -/

/-- The FSM data dict accumulated by the creation/edit dialog (the
`editing` flag it also holds is passed to the handlers separately). -/
structure FormData where
  server : String
  nickname : String
  uid : String
  adventure_rank : String
  languages : String
  playtime : String
  bio : String
  platforms : String
  playstyle : String
deriving DecidableEq, Repr

/-- Outcome of one free-text dialog step: the new session data and whether
the state machine advanced to the next state (`false` = the handler
returned early after re-prompting, leaving data and state untouched). -/
structure StepResult where
  data : FormData
  advanced : Bool
deriving DecidableEq, Repr

/-- `process_ar` of `bot.py` (the Adventure Rank step): `-` in edit mode
preserves, `-` otherwise clears, anything else must parse with `int` and
lie in `[1, 60]` or the handler returns after re-prompting. -/
def process_ar (text : String) (data : FormData) (editing : Bool) :
    StepResult :=
  if pyStrip text = "-" ∧ editing then ⟨data, true⟩
  else if pyStrip text = "-" then ⟨{ data with adventure_rank := "" }, true⟩
  else
    match pyInt (pyStrip text) with
    | none => ⟨data, false⟩
    | some ar =>
      if 1 ≤ ar ∧ ar ≤ 60 then
        ⟨{ data with adventure_rank := toString ar }, true⟩
      else ⟨data, false⟩

/-- `txt.upper().replace(" ", "")` of `process_playtime`. -/
def playtimeVal (txt : String) : String := removeChar ' ' (pyUpper txt)

/-- The `val.startswith("MSK")` arm of `process_playtime`: remainders
`""`, `"+"` and `"+0"` parse as 0, otherwise every `"+"` is removed
(`rest.replace("+", "")`) and the remainder goes through `int`. -/
def mskParse (rest : String) : Option Int :=
  if rest = "" ∨ rest = "+" ∨ rest = "+0" then some 0
  else pyInt (removeChar '+' rest)

/-- The whole `parsed` computation of `process_playtime` on the stripped
input text. -/
def playtimeParsed (txt : String) : Option Int :=
  if (playtimeVal txt).toList.take 3 = ['M', 'S', 'K'] then
    mskParse (String.mk ((playtimeVal txt).toList.drop 3))
  else pyInt (playtimeVal txt)

/-- `process_playtime` of `bot.py` (the PlayTime step). -/
def process_playtime (text : String) (data : FormData) (editing : Bool) :
    StepResult :=
  if pyStrip text = "-" ∧ editing then ⟨data, true⟩
  else if pyStrip text = "-" then ⟨{ data with playtime := "" }, true⟩
  else
    match playtimeParsed (pyStrip text) with
    | none =>
      if 1 ≤ (pyStrip text).length ∧ (pyStrip text).length ≤ 64 then
        ⟨{ data with
            playtime := String.mk ((pyStrip text).toList.take 64) }, true⟩
      else ⟨data, false⟩
    | some p =>
      if -12 ≤ p ∧ p ≤ 14 then
        ⟨{ data with
            playtime :=
              "MSK" ++ (if 0 ≤ p then "+" ++ toString p else toString p) },
          true⟩
      else ⟨data, false⟩

/-! ### Language toggles (`bot.py`) -/

/-- The codes of `LANG_BUTTONS` (the emojis only decorate the labels). -/
def LANG_CODES : List String :=
  ["RU", "EN", "UA", "BY", "KZ", "RS", "EE", "BG", "LT", "LV", "GE", "MD"]

/-- `str.split(sep)` for a one-character separator (no collapsing of empty
pieces, exactly like Python). -/
def pySplitC (c : Char) : List Char → List (List Char)
  | [] => [[]]
  | x :: xs =>
    if x = c then [] :: pySplitC c xs
    else
      match pySplitC c xs with
      | [] => [[x]]
      | p :: ps => (x :: p) :: ps

/-- `set([p.strip().upper() for p in langs_raw.split(",") if p.strip()])`
as a duplicate-free list (Python set semantics = membership). -/
def parseLangList (raw : String) : List (List Char) :=
  (((pySplitC ',' raw.toList).filter (fun p => pyStripC p ≠ [])).map
    (fun p => (pyStripC p).map Char.toUpper)).dedup

/-- `selected.remove(action)` / `selected.add(action)`. -/
def toggleLang (code : List Char) (s : List (List Char)) :
    List (List Char) :=
  if code ∈ s then s.filter (fun x => x ≠ code) else s ++ [code]

/-- Python `sorted(...)` on strings: lexicographic by code point. -/
def sortedLangs (s : List (List Char)) : List (List Char) :=
  List.insertionSort (fun a b => strLeC a b = true) s

/-- `",".join(parts)`. -/
def pyJoinC (c : Char) : List (List Char) → List Char
  | [] => []
  | [p] => p
  | p :: q :: ps => p ++ c :: pyJoinC c (q :: ps)

/-- `process_lang_toggle` of `bot.py`: a catalog code flips its membership
in the working set and re-serializes it as the sorted comma-joined list
(`",".join(sorted(selected))`); `"DONE"` advances to the PlayTime step;
any other token falls through with no effect.  The boolean reports whether
the dialog advanced. -/
def process_lang_toggle (action : String) (data : FormData) :
    FormData × Bool :=
  if action ∈ LANG_CODES then
    ⟨{ data with
        languages := String.mk (pyJoinC ','
          (sortedLangs (toggleLang action.toList
            (parseLangList data.languages)))) }, false⟩
  else if action = "DONE" then ⟨data, true⟩
  else ⟨data, false⟩

/-! ### C5: the Rank step validates its input -/

/-- An all-empty session record. -/
def blankForm : FormData := ⟨"", "", "", "", "", "", "", "", ""⟩

/-- C5: at the Rank step (input other than the `-` sentinel), a non-integer
input or an integer outside `[1, 60]` leaves the session data — in
particular the stored rank — unchanged and does not advance the state
machine (the handler returns after re-prompting), while an integer in
`[1, 60]` is stored (as its canonical decimal form) and the dialog
advances. -/
theorem process_ar_validates (text : String) (data : FormData)
    (editing : Bool) (hs : pyStrip text ≠ "-") :
    (pyInt (pyStrip text) = none →
      process_ar text data editing = ⟨data, false⟩) ∧
    (∀ n : Int, pyInt (pyStrip text) = some n → n < 1 ∨ 60 < n →
      process_ar text data editing = ⟨data, false⟩) ∧
    (∀ n : Int, pyInt (pyStrip text) = some n → 1 ≤ n → n ≤ 60 →
      process_ar text data editing =
        ⟨{ data with adventure_rank := toString n }, true⟩) := by
  refine ⟨?_, ?_, ?_⟩
  · intro h
    simp [process_ar, hs, h]
  · intro n h hr
    simp [process_ar, hs, h, show ¬(1 ≤ n ∧ n ≤ 60) by omega]
  · intro n h h1 h2
    simp [process_ar, hs, h, h1, h2]

/-- Witness for C5 at the out-of-range input "61" (and, through the
quantified conjuncts, at every parse outcome of that input). -/
theorem process_ar_validates_witness :
    pyStrip "61" ≠ "-" ∧
    ((pyInt (pyStrip "61") = none →
      process_ar "61" blankForm false = ⟨blankForm, false⟩) ∧
    (∀ n : Int, pyInt (pyStrip "61") = some n → n < 1 ∨ 60 < n →
      process_ar "61" blankForm false = ⟨blankForm, false⟩) ∧
    (∀ n : Int, pyInt (pyStrip "61") = some n → 1 ≤ n → n ≤ 60 →
      process_ar "61" blankForm false =
        ⟨{ blankForm with adventure_rank := toString n }, true⟩)) :=
  ⟨by decide, process_ar_validates "61" blankForm false (by decide)⟩

/-! ### Character facts for the ASCII `upper` model -/

theorem char_eq_iff_toNat {a b : Char} : a = b ↔ a.toNat = b.toNat :=
  ⟨fun h => by rw [h],
    fun h => by rw [← Char.ofNat_toNat a, h, Char.ofNat_toNat]⟩

theorem toUpper_toNat (c : Char) :
    (Char.toUpper c).toNat =
      if 97 ≤ c.toNat ∧ c.toNat ≤ 122 then c.toNat - 32 else c.toNat := by
  simp only [Char.toUpper, ge_iff_le]
  split_ifs with h
  · obtain ⟨h1, h2⟩ := h
    obtain ⟨k, hk⟩ : ∃ k, c.toNat = k := ⟨_, rfl⟩
    rw [hk] at h1 h2 ⊢
    interval_cases k <;> decide
  · rfl

theorem toUpper_eq_self_of (c : Char)
    (h : ¬(97 ≤ c.toNat ∧ c.toNat ≤ 122)) : Char.toUpper c = c := by
  rw [char_eq_iff_toNat, toUpper_toNat, if_neg h]

theorem toUpper_idem (c : Char) :
    Char.toUpper (Char.toUpper c) = Char.toUpper c := by
  by_cases h : 97 ≤ c.toNat ∧ c.toNat ≤ 122
  · apply toUpper_eq_self_of
    rw [toUpper_toNat, if_pos h]
    omega
  · simp [toUpper_eq_self_of c h]

theorem pyIsSpace_toUpper (c : Char) :
    pyIsSpace (Char.toUpper c) = pyIsSpace c := by
  unfold pyIsSpace
  rw [toUpper_toNat]
  by_cases h : 97 ≤ c.toNat ∧ c.toNat ≤ 122
  · rw [if_pos h]
    simp only [decide_eq_decide]
    omega
  · rw [if_neg h]

theorem toUpper_eq_comma_iff (c : Char) :
    Char.toUpper c = ',' ↔ c = ',' := by
  have hcm : (',' : Char).toNat = 44 := rfl
  by_cases h : 97 ≤ c.toNat ∧ c.toNat ≤ 122
  · have h1 : (Char.toUpper c).toNat = c.toNat - 32 := by
      rw [toUpper_toNat, if_pos h]
    constructor
    · intro hc
      exfalso
      have := char_eq_iff_toNat.1 hc
      omega
    · intro hc
      exfalso
      have := char_eq_iff_toNat.1 hc
      omega
  · rw [toUpper_eq_self_of c h]

/-! ### Lemmas about `strip`, `split` and `join` -/

theorem toList_mk (l : List Char) : (String.mk l).toList = l := rfl

theorem head?_dropWhile_bool {α} (p : α → Bool) (l : List α) (x : α)
    (h : (l.dropWhile p).head? = some x) : p x = false := by
  induction l with
  | nil => simp at h
  | cons a t ih =>
    rw [List.dropWhile_cons] at h
    by_cases pa : p a = true
    · rw [if_pos pa] at h
      exact ih h
    · rw [if_neg pa] at h
      simp at h
      rw [← h]
      simpa using pa

theorem dropWhile_eq_self_of_head {α} (p : α → Bool) (l : List α)
    (h : ∀ x, l.head? = some x → p x = false) : l.dropWhile p = l := by
  cases l with
  | nil => rfl
  | cons a t =>
    rw [List.dropWhile_cons, if_neg]
    simp [h a rfl]

theorem getLast?_cons_of_ne_nil {α} (a : α) (t : List α) (h : t ≠ []) :
    (a :: t).getLast? = t.getLast? := by
  cases t with
  | nil => exact absurd rfl h
  | cons b t' => exact List.getLast?_cons_cons

theorem getLast?_dropWhile {α} (p : α → Bool) (l : List α)
    (h : l.dropWhile p ≠ []) :
    (l.dropWhile p).getLast? = l.getLast? := by
  induction l with
  | nil => simp at h
  | cons a t ih =>
    rw [List.dropWhile_cons] at h ⊢
    by_cases pa : p a = true
    · rw [if_pos pa] at h ⊢
      have ht : t ≠ [] := by
        intro ht0
        rw [ht0] at h
        simp at h
      rw [ih h, getLast?_cons_of_ne_nil a t ht]
    · rw [if_neg pa] at h ⊢

theorem pyStripC_head (l : List Char) (x : Char)
    (h : (pyStripC l).head? = some x) : pyIsSpace x = false := by
  unfold pyStripC at h
  rw [List.head?_reverse] at h
  have hne : ((l.dropWhile pyIsSpace).reverse.dropWhile
      pyIsSpace) ≠ [] := by
    intro h0
    rw [h0] at h
    simp at h
  rw [getLast?_dropWhile _ _ hne, List.getLast?_reverse] at h
  exact head?_dropWhile_bool _ _ _ h

theorem pyStripC_getLast (l : List Char) (x : Char)
    (h : (pyStripC l).getLast? = some x) : pyIsSpace x = false := by
  unfold pyStripC at h
  rw [List.getLast?_reverse] at h
  exact head?_dropWhile_bool _ _ _ h

theorem pyStripC_idem (l : List Char) : pyStripC (pyStripC l) = pyStripC l := by
  have step1 : (pyStripC l).dropWhile pyIsSpace = pyStripC l :=
    dropWhile_eq_self_of_head _ _ (fun x hx => pyStripC_head l x hx)
  have step2 : (pyStripC l).reverse.dropWhile pyIsSpace
      = (pyStripC l).reverse := by
    apply dropWhile_eq_self_of_head
    intro x hx
    rw [List.head?_reverse] at hx
    exact pyStripC_getLast l x hx
  show (((pyStripC l).dropWhile pyIsSpace).reverse.dropWhile
      pyIsSpace).reverse = pyStripC l
  rw [step1, step2, List.reverse_reverse]

theorem pyStripC_map_toUpper (l : List Char) :
    pyStripC (l.map Char.toUpper) = (pyStripC l).map Char.toUpper := by
  have hws : (pyIsSpace ∘ Char.toUpper) = pyIsSpace :=
    funext pyIsSpace_toUpper
  unfold pyStripC
  rw [List.dropWhile_map, hws, ← List.map_reverse, List.dropWhile_map, hws,
    ← List.map_reverse]

theorem mem_pyStripC {l : List Char} {x : Char} (h : x ∈ pyStripC l) :
    x ∈ l := by
  unfold pyStripC at h
  rw [List.mem_reverse] at h
  have h1 := (List.dropWhile_sublist (l := (l.dropWhile
    pyIsSpace).reverse) pyIsSpace).mem h
  rw [List.mem_reverse] at h1
  exact (List.dropWhile_sublist pyIsSpace).mem h1

theorem not_mem_of_mem_pySplitC (c : Char) (l : List Char) (p : List Char)
    (hp : p ∈ pySplitC c l) : c ∉ p := by
  induction l generalizing p with
  | nil =>
    simp only [pySplitC, List.mem_singleton] at hp
    subst hp
    simp
  | cons x xs ih =>
    simp only [pySplitC] at hp
    by_cases hx : x = c
    · rw [if_pos hx] at hp
      rcases List.mem_cons.1 hp with rfl | h
      · simp
      · exact ih p h
    · rw [if_neg hx] at hp
      cases hsp : pySplitC c xs with
      | nil => rw [hsp] at hp; simp at hp; subst hp; simpa using fun hc => hx hc.symm
      | cons q qs =>
        rw [hsp] at hp
        rcases List.mem_cons.1 hp with rfl | h
        · intro hc
          rcases List.mem_cons.1 hc with hc1 | hc2
          · exact hx hc1.symm
          · exact ih q (hsp ▸ List.mem_cons_self q qs) hc2
        · exact ih p (hsp ▸ List.mem_cons_of_mem q h)

theorem pySplitC_no_sep (c : Char) (p : List Char) (h : c ∉ p) :
    pySplitC c p = [p] := by
  induction p with
  | nil => rfl
  | cons x xs ih =>
    have hx : ¬ x = c := fun hc => h (by simp [hc])
    have hxs : c ∉ xs := fun hc => h (List.mem_cons_of_mem x hc)
    simp only [pySplitC, if_neg hx, ih hxs]

theorem pySplitC_append_sep (c : Char) (p r : List Char) (h : c ∉ p) :
    pySplitC c (p ++ c :: r) = p :: pySplitC c r := by
  induction p with
  | nil => simp [pySplitC]
  | cons x xs ih =>
    have hx : ¬ x = c := fun hc => h (by simp [hc])
    have hxs : c ∉ xs := fun hc => h (List.mem_cons_of_mem x hc)
    rw [List.cons_append]
    simp only [pySplitC, if_neg hx]
    rw [ih hxs]

theorem pySplitC_join (c : Char) (L : List (List Char)) (hne : L ≠ [])
    (hc : ∀ p ∈ L, c ∉ p) : pySplitC c (pyJoinC c L) = L := by
  induction L with
  | nil => exact absurd rfl hne
  | cons p ps ih =>
    cases ps with
    | nil =>
      show pySplitC c (pyJoinC c [p]) = [p]
      rw [show pyJoinC c [p] = p from rfl]
      exact pySplitC_no_sep c p (hc p (List.mem_cons_self p []))
    | cons q qs =>
      show pySplitC c (p ++ c :: pyJoinC c (q :: qs)) = p :: q :: qs
      rw [pySplitC_append_sep c p _ (hc p (List.mem_cons_self p _)),
        ih (by simp) (fun r hr => hc r (List.mem_cons_of_mem p hr))]

/-! ### C6: double language toggle is the identity on the working set -/

/-- Elements produced by `parseLangList` (and the catalog codes): nonempty,
comma-free, fixed by strip and fixed by upper. -/
def cleanLang (p : List Char) : Prop :=
  p ≠ [] ∧ ',' ∉ p ∧ pyStripC p = p ∧ p.map Char.toUpper = p

instance (p : List Char) : Decidable (cleanLang p) := by
  unfold cleanLang
  infer_instance

theorem clean_parse (raw : String) : ∀ x ∈ parseLangList raw, cleanLang x := by
  intro x hx
  unfold parseLangList at hx
  rw [List.mem_dedup] at hx
  rcases List.mem_map.1 hx with ⟨p, hpmem, rfl⟩
  rcases List.mem_filter.1 hpmem with ⟨hpsplit, hpne⟩
  have hpne' : pyStripC p ≠ [] := by simpa using hpne
  refine ⟨by simpa using hpne', ?_, ?_, ?_⟩
  · intro hcm
    rcases List.mem_map.1 hcm with ⟨c0, hc0, hup⟩
    have : c0 = ',' := (toUpper_eq_comma_iff c0).1 hup
    subst this
    exact not_mem_of_mem_pySplitC ',' raw.toList p hpsplit (mem_pyStripC hc0)
  · rw [pyStripC_map_toUpper, pyStripC_idem]
  · rw [List.map_map]
    exact List.map_congr_left (fun c _ => toUpper_idem c)

theorem clean_code (code : String) (hc : code ∈ LANG_CODES) :
    cleanLang code.toList := by
  fin_cases hc <;> decide

theorem clean_toggle (c : List Char) (t : List (List Char))
    (hc : cleanLang c) (ht : ∀ x ∈ t, cleanLang x) :
    ∀ x ∈ toggleLang c t, cleanLang x := by
  intro x hx
  unfold toggleLang at hx
  by_cases h : c ∈ t
  · rw [if_pos h] at hx
    exact ht x (List.mem_filter.1 hx).1
  · rw [if_neg h] at hx
    rcases List.mem_append.1 hx with h1 | h2
    · exact ht x h1
    · rw [List.mem_singleton.1 h2]
      exact hc

theorem roundTripLangs (s : List (List Char))
    (hs : ∀ x ∈ s, cleanLang x) (x : List Char) :
    x ∈ parseLangList (String.mk (pyJoinC ',' (sortedLangs s))) ↔ x ∈ s := by
  have hperm : (sortedLangs s).Perm s := List.perm_insertionSort _ s
  by_cases hnil : s = []
  · subst hnil
    exact Iff.rfl
  · have hne : sortedLangs s ≠ [] := by
      intro h0
      apply hnil
      have := hperm.length_eq
      rw [h0] at this
      exact List.length_eq_zero.1 this.symm
    have hcs : ∀ p ∈ sortedLangs s, cleanLang p :=
      fun p hp => hs p (hperm.subset hp)
    unfold parseLangList
    rw [toList_mk, pySplitC_join ',' (sortedLangs s) hne
      (fun p hp => (hcs p hp).2.1)]
    have hfilter : (sortedLangs s).filter (fun p => decide (pyStripC p ≠ []))
        = sortedLangs s := by
      apply List.filter_eq_self.2
      intro p hp
      rw [(hcs p hp).2.2.1]
      simpa using (hcs p hp).1
    rw [hfilter]
    have hmap : (sortedLangs s).map (fun p => (pyStripC p).map Char.toUpper)
        = sortedLangs s := by
      rw [List.map_congr_left (g := id)
        (fun p hp => by rw [(hcs p hp).2.2.1, (hcs p hp).2.2.2]; rfl)]
      exact List.map_id _
    rw [hmap, List.mem_dedup]
    exact hperm.mem_iff

theorem mem_toggleLang (c x : List Char) (t : List (List Char)) :
    x ∈ toggleLang c t ↔
      (if c ∈ t then x ∈ t ∧ x ≠ c else x ∈ t ∨ x = c) := by
  unfold toggleLang
  by_cases h : c ∈ t
  · rw [if_pos h, if_pos h]
    simp [List.mem_filter]
  · rw [if_neg h, if_neg h]
    simp

theorem toggle_mem_congr (c : List Char) (t t' : List (List Char))
    (h : ∀ y, y ∈ t ↔ y ∈ t') (x : List Char) :
    x ∈ toggleLang c t ↔ x ∈ toggleLang c t' := by
  rw [mem_toggleLang, mem_toggleLang]
  by_cases hc : c ∈ t
  · rw [if_pos hc, if_pos ((h c).1 hc), h x]
  · rw [if_neg hc, if_neg (fun hc2 => hc ((h c).2 hc2)), h x]

theorem toggle_toggle (c : List Char) (t : List (List Char))
    (x : List Char) :
    x ∈ toggleLang c (toggleLang c t) ↔ x ∈ t := by
  by_cases hc : c ∈ t
  · have h1 : c ∉ toggleLang c t := by
      simp [toggleLang, hc, List.mem_filter]
    rw [mem_toggleLang, if_neg h1, mem_toggleLang, if_pos hc]
    by_cases hx : x = c
    · subst hx; simp [hc]
    · simp [hx]
  · have h1 : c ∈ toggleLang c t := by
      simp [toggleLang, hc]
    rw [mem_toggleLang, if_pos h1, mem_toggleLang, if_neg hc]
    by_cases hx : x = c
    · subst hx; simp [hc]
    · simp [hx]

/-- C6: toggling the same catalog language code twice leaves the working
set of selected languages (the set the handler computes from the stored
comma-joined string) exactly where it was: membership after the double
toggle agrees with membership before it, for every session value of the
languages field. -/
theorem lang_double_toggle_identity (data : FormData) (code : String)
    (hc : code ∈ LANG_CODES) :
    ∀ x, x ∈ parseLangList
        ((process_lang_toggle code
          (process_lang_toggle code data).1).1).languages
      ↔ x ∈ parseLangList data.languages := by
  intro x
  have hcode : cleanLang code.toList := clean_code code hc
  have h1 : (process_lang_toggle code data).1.languages =
      String.mk (pyJoinC ','
        (sortedLangs (toggleLang code.toList (parseLangList data.languages)))) := by
    simp [process_lang_toggle, hc]
  have h2 : (process_lang_toggle code (process_lang_toggle code data).1).1.languages =
      String.mk (pyJoinC ','
        (sortedLangs (toggleLang code.toList
          (parseLangList (process_lang_toggle code data).1.languages)))) := by
    simp [process_lang_toggle, hc]
  rw [h2, h1]
  have hs0clean : ∀ y ∈ parseLangList data.languages, cleanLang y :=
    clean_parse _
  have ht1clean : ∀ y ∈ toggleLang code.toList (parseLangList data.languages),
      cleanLang y := clean_toggle _ _ hcode hs0clean
  have hrt1 : ∀ y, y ∈ parseLangList (String.mk (pyJoinC ','
        (sortedLangs (toggleLang code.toList (parseLangList data.languages)))))
      ↔ y ∈ toggleLang code.toList (parseLangList data.languages) :=
    roundTripLangs _ ht1clean
  have hp1clean : ∀ y ∈ parseLangList (String.mk (pyJoinC ','
        (sortedLangs (toggleLang code.toList (parseLangList data.languages))))),
      cleanLang y := clean_parse _
  have ht2clean := clean_toggle code.toList _ hcode hp1clean
  rw [roundTripLangs _ ht2clean x,
    toggle_mem_congr code.toList _ _ hrt1 x]
  exact toggle_toggle code.toList (parseLangList data.languages) x

/-- Witness for C6: toggling "RU" twice starting from the stored value
"EN" (the conclusion quantifies over every member of the working set). -/
theorem lang_double_toggle_identity_witness :
    ("RU" : String) ∈ LANG_CODES ∧
    ∀ x, x ∈ parseLangList
        ((process_lang_toggle "RU"
          (process_lang_toggle "RU"
            { blankForm with languages := "EN" }).1).1).languages
      ↔ x ∈ parseLangList
          ({ blankForm with languages := "EN" } : FormData).languages :=
  ⟨by decide,
    lang_double_toggle_identity { blankForm with languages := "EN" } "RU"
      (by decide)⟩

/-! ### C4: the PlayTime step -/

/-- The parse described by the claim's own words: "a signed integer,
optionally prefixed \"MSK\"" — nothing else.  Used only to compare the
claim with the code. -/
def claimSignedIntOptMSK (txt : String) : Option Int :=
  if txt.toList.take 3 = ['M', 'S', 'K'] then pyIntC (txt.toList.drop 3)
  else pyIntC txt.toList

/-- The claim C4, instantiated at one input string: if the input does not
parse per `claimSignedIntOptMSK` it is stored verbatim when its length is
1–64 (re-prompted otherwise), and if it parses the value is range-checked
and stored canonically. -/
def playtimeClaimAt (txt : String) : Prop :=
  (∀ n : Int, claimSignedIntOptMSK txt = some n →
    (-12 ≤ n ∧ n ≤ 14 →
      ∀ (data : FormData) (editing : Bool),
        process_playtime txt data editing =
          ⟨{ data with
              playtime :=
                "MSK" ++ (if 0 ≤ n then "+" ++ toString n else toString n) },
            true⟩) ∧
    (n < -12 ∨ 14 < n →
      ∀ (data : FormData) (editing : Bool),
        process_playtime txt data editing = ⟨data, false⟩)) ∧
  (claimSignedIntOptMSK txt = none →
    (1 ≤ txt.length ∧ txt.length ≤ 64 →
      ∀ (data : FormData) (editing : Bool),
        process_playtime txt data editing =
          ⟨{ data with playtime := txt }, true⟩) ∧
    (¬(1 ≤ txt.length ∧ txt.length ≤ 64) →
      ∀ (data : FormData) (editing : Bool),
        process_playtime txt data editing = ⟨data, false⟩))

/-- Counterexample to C4 as stated: the input `"MSK"` contains no integer,
so per the claim it should be stored verbatim (its length is 3), but
`process_playtime` treats the empty remainder after the "MSK" prefix as 0
and stores `"MSK+0"`. -/
theorem playtime_claim_counterexample : ¬ playtimeClaimAt "MSK" := by
  intro h
  have h2 := (h.2 (by decide)).1 (by decide) blankForm false
  have h3 : (process_playtime "MSK" blankForm false).data.playtime
      = "MSK" := by rw [h2]
  exact absurd h3 (by decide)

/-- The parse of the amended claim: on the uppercased, space-stripped
input, an optional "MSK" prefix whose remainders `""`, `"+"`, `"+0"`
denote 0 and whose other remainders are signed-integer-parsed after
removing every `"+"`; without the prefix, a plain signed integer. -/
def amendedPlaytimeParse (txt : String) : Option Int :=
  match (playtimeVal txt).toList with
  | 'M' :: 'S' :: 'K' :: rest =>
    if rest = [] ∨ rest = ['+'] ∨ rest = ['+', '0'] then some 0
    else pyIntC (rest.filter (fun x => x ≠ '+'))
  | other => pyIntC other

theorem mk_eq_mk (a b : List Char) : String.mk a = String.mk b ↔ a = b :=
  ⟨fun h => by have := congrArg String.toList h; simpa [toList_mk] using this,
    fun h => by rw [h]⟩

theorem amendedPlaytimeParse_eq (txt : String) :
    amendedPlaytimeParse txt = playtimeParsed txt := by
  unfold amendedPlaytimeParse playtimeParsed mskParse
  rcases hL : (playtimeVal txt).toList with _ | ⟨a, _ | ⟨b, _ | ⟨c, rest⟩⟩⟩
  · simp [pyInt, hL]
    rw [← hL]
    rfl
  · simp [pyInt, hL]
    rw [← hL]
    rfl
  · simp [pyInt, hL]
    rw [← hL]
    rfl
  · by_cases hm : a = 'M' ∧ b = 'S' ∧ c = 'K'
    · obtain ⟨rfl, rfl, rfl⟩ := hm
      rw [if_pos (by simp)]
      show (if rest = [] ∨ rest = ['+'] ∨ rest = ['+', '0'] then some 0
          else pyIntC (rest.filter (fun x => decide (x ≠ '+')))) =
        (if String.mk rest = "" ∨ String.mk rest = "+" ∨
            String.mk rest = "+0"
          then some 0 else pyInt (removeChar '+' (String.mk rest)))
      simp only [show ("" : String) = String.mk [] from rfl,
        show ("+" : String) = String.mk ['+'] from rfl,
        show ("+0" : String) = String.mk ['+', '0'] from rfl, mk_eq_mk]
      by_cases hr : rest = [] ∨ rest = ['+'] ∨ rest = ['+', '0']
      · rw [if_pos hr, if_pos hr]
      · rw [if_neg hr, if_neg hr]
        rfl
    · rw [if_neg (by simpa using fun h1 h2 h3 => hm ⟨h1, h2, h3⟩)]
      have : pyInt (playtimeVal txt) = pyIntC (a :: b :: c :: rest) := by
        unfold pyInt
        rw [hL]
      rw [this]
      split
      · next r heq =>
        exact absurd heq (by
          intro he
          injection he with e1 he2
          injection he2 with e2 he3
          injection he3 with e3 _
          exact hm ⟨e1, e2, e3⟩)
      · rfl

/-- C4 (amended): for every input at the PlayTime step other than the `-`
sentinel, the handler parses the uppercased, space-stripped input with the
extended rules of `amendedPlaytimeParse` (after an "MSK" prefix the
remainders `""`, `"+"`, `"+0"` denote 0 and every `"+"` is dropped before
integer parsing); a parsed value is accepted exactly when it lies in
`[-12, 14]` and is stored as `MSK+N` / `MSK-N` (out of range re-prompts
with data and state unchanged); an input that still fails to parse is
stored verbatim (the stripped text) when its length is 1–64 and re-prompted
otherwise. -/
theorem process_playtime_characterization (text : String) (data : FormData)
    (editing : Bool) (hs : pyStrip text ≠ "-") :
    (∀ n : Int, amendedPlaytimeParse (pyStrip text) = some n →
      (-12 ≤ n ∧ n ≤ 14 →
        process_playtime text data editing =
          ⟨{ data with
              playtime :=
                "MSK" ++ (if 0 ≤ n then "+" ++ toString n else toString n) },
            true⟩) ∧
      (n < -12 ∨ 14 < n →
        process_playtime text data editing = ⟨data, false⟩)) ∧
    (amendedPlaytimeParse (pyStrip text) = none →
      (1 ≤ (pyStrip text).length ∧ (pyStrip text).length ≤ 64 →
        process_playtime text data editing =
          ⟨{ data with playtime := pyStrip text }, true⟩) ∧
      (¬(1 ≤ (pyStrip text).length ∧ (pyStrip text).length ≤ 64) →
        process_playtime text data editing = ⟨data, false⟩)) := by
  constructor
  · intro n h
    rw [amendedPlaytimeParse_eq] at h
    constructor
    · rintro ⟨h1, h2⟩
      simp [process_playtime, hs, h, h1, h2]
    · intro hr
      simp [process_playtime, hs, h, show ¬(-12 ≤ n ∧ n ≤ 14) by omega]
  · intro h
    rw [amendedPlaytimeParse_eq] at h
    constructor
    · rintro ⟨h1, h2⟩
      have hlen : (pyStrip text).data.length ≤ 64 := h2
      have htake : String.mk ((pyStrip text).data.take 64) = pyStrip text := by
        rw [List.take_of_length_le hlen]
      simp [process_playtime, hs, h, h1, h2, htake]
    · intro hbad
      simp only [process_playtime, hs, false_and, if_false, h]
      rw [if_neg hbad]

/-- Witness for C4 (amended) at the input "msk-5": parses to -5, in range,
stored as "MSK-5". -/
theorem process_playtime_characterization_witness :
    pyStrip "msk-5" ≠ "-" ∧
    ((∀ n : Int, amendedPlaytimeParse (pyStrip "msk-5") = some n →
      (-12 ≤ n ∧ n ≤ 14 →
        process_playtime "msk-5" blankForm false =
          ⟨{ blankForm with
              playtime :=
                "MSK" ++ (if 0 ≤ n then "+" ++ toString n else toString n) },
            true⟩) ∧
      (n < -12 ∨ 14 < n →
        process_playtime "msk-5" blankForm false = ⟨blankForm, false⟩)) ∧
    (amendedPlaytimeParse (pyStrip "msk-5") = none →
      (1 ≤ (pyStrip "msk-5").length ∧ (pyStrip "msk-5").length ≤ 64 →
        process_playtime "msk-5" blankForm false =
          ⟨{ blankForm with playtime := pyStrip "msk-5" }, true⟩) ∧
      (¬(1 ≤ (pyStrip "msk-5").length ∧ (pyStrip "msk-5").length ≤ 64) →
        process_playtime "msk-5" blankForm false = ⟨blankForm, false⟩))) :=
  ⟨by decide, process_playtime_characterization "msk-5" blankForm false
    (by decide)⟩

end GenshinBot
